import Mathlib

/- Formal model of the claude-openai-bridge server (src/server.py).

   Pure fragments of the Python code are translated into executable Lean
   definitions; effectful fragments (subprocess reads, HTTP calls) are made
   explicit by passing their observed results as arguments.  Python strings
   are modelled as Lean `String`/`List Char`; bytes as `List Nat` (values
   below 256); Python decimal values that the code parses from text are
   modelled exactly as scaled integers (`num / 10 ^ exp10`), so all
   arithmetic the code performs in binary floating point is modelled in
   exact decimal arithmetic (a faithful model at every input used below). -/

namespace ClaudeBridge

/- Model of `bytes.decode('utf-8', errors='replace')` (CPython / WHATWG
   semantics: malformed input is replaced by U+FFFD, one replacement per
   maximal invalid subpart).  Used by `stream_chat_completion`, which decodes
   each 64-byte read window independently. -/

def replChar : Char := Char.ofNat 0xFFFD

def isContByte (b : Nat) : Bool := 0x80 ≤ b && b < 0xC0

def utf8DecodeReplace : List Nat → List Char
  | [] => []
  | b :: bs =>
    if b < 0x80 then Char.ofNat b :: utf8DecodeReplace bs
    else if b < 0xC2 then replChar :: utf8DecodeReplace bs
    else if b < 0xE0 then
      match bs with
      | [] => [replChar]
      | b2 :: rest =>
        if isContByte b2 then
          Char.ofNat ((b - 0xC0) * 0x40 + (b2 - 0x80)) :: utf8DecodeReplace rest
        else replChar :: utf8DecodeReplace (b2 :: rest)
    else if b < 0xF0 then
      match bs with
      | [] => [replChar]
      | b2 :: rest =>
        if (if b = 0xE0 then decide (0xA0 ≤ b2) && decide (b2 < 0xC0)
            else if b = 0xED then decide (0x80 ≤ b2) && decide (b2 < 0xA0)
            else isContByte b2) then
          match rest with
          | [] => [replChar]
          | b3 :: rest2 =>
            if isContByte b3 then
              Char.ofNat ((b - 0xE0) * 0x1000 + (b2 - 0x80) * 0x40 + (b3 - 0x80)) ::
                utf8DecodeReplace rest2
            else replChar :: utf8DecodeReplace (b3 :: rest2)
        else replChar :: utf8DecodeReplace (b2 :: rest)
    else if b < 0xF5 then
      match bs with
      | [] => [replChar]
      | b2 :: rest =>
        if (if b = 0xF0 then decide (0x90 ≤ b2) && decide (b2 < 0xC0)
            else if b = 0xF4 then decide (0x80 ≤ b2) && decide (b2 < 0x90)
            else isContByte b2) then
          match rest with
          | [] => [replChar]
          | b3 :: rest2 =>
            if isContByte b3 then
              match rest2 with
              | [] => [replChar]
              | b4 :: rest3 =>
                if isContByte b4 then
                  Char.ofNat ((b - 0xF0) * 0x40000 + (b2 - 0x80) * 0x1000 +
                      (b3 - 0x80) * 0x40 + (b4 - 0x80)) :: utf8DecodeReplace rest3
                else replChar :: utf8DecodeReplace (b4 :: rest3)
            else replChar :: utf8DecodeReplace (b3 :: rest2)
        else replChar :: utf8DecodeReplace (b2 :: rest)
    else replChar :: utf8DecodeReplace bs

def decodeReplace (bs : List Nat) : String := String.mk (utf8DecodeReplace bs)

/- Streaming transducer (`stream_chat_completion` in src/server.py).

   A frame of the emitted event stream: either one serialized
   ChatCompletionChunk (its `delta.content` and `finish_reason` fields are
   the only ones the claims mention) or the `data: [DONE]` sentinel. -/

inductive StreamFrame where
  | chunk (delta_content : Option String) (finish_reason : Option String)
  | done
deriving DecidableEq

/- Reference flush threshold: `if len(buffer) > 10` in the source. -/
def flushThreshold : Nat := 10

/- One iteration of the read loop after decoding a read window: append the
   decoded text to the buffer and flush it as a content chunk when its
   length exceeds the threshold. -/
def sseStep (st : String × List StreamFrame) (piece : String) :
    String × List StreamFrame :=
  let buf := st.1 ++ piece
  if buf.length > flushThreshold then
    ("", st.2 ++ [StreamFrame.chunk (some buf) none])
  else (buf, st.2)

/- The read loop: `reads` is the sequence of byte windows returned by
   `process.stdout.read(64)` until end of stream; each window is decoded
   independently with `decode('utf-8', errors='replace')` exactly as in the
   source.  Returns the final buffer and the flushed content chunks. -/
def streamBody (reads : List (List Nat)) : String × List StreamFrame :=
  (reads.map decodeReplace).foldl sseStep ("", [])

/- Normal path of `stream_chat_completion`: loop, then flush a non-empty
   remaining buffer, then the terminal chunk with empty delta and
   `finish_reason="stop"`, then the `[DONE]` sentinel. -/
def stream_chat_completion (reads : List (List Nat)) : List StreamFrame :=
  (streamBody reads).2 ++
    (if (streamBody reads).1 = "" then []
     else [StreamFrame.chunk (some (streamBody reads).1) none]) ++
    [StreamFrame.chunk none (some "stop"), StreamFrame.done]

/- Internal-error path of `stream_chat_completion`: an exception interrupts
   the loop after some prefix of the reads was processed (text still in the
   buffer is lost); the `except` handler emits one chunk that carries the
   error text as `delta.content` together with `finish_reason="stop"`, then
   the `[DONE]` sentinel. -/
def stream_chat_completion_error (reads : List (List Nat)) (errMsg : String) :
    List StreamFrame :=
  (streamBody reads).2 ++
    [StreamFrame.chunk (some ("Ошибка: " ++ errMsg)) (some "stop"),
     StreamFrame.done]

/- Text carried by a frame's `delta.content`, empty when absent. -/
def deltaText : StreamFrame → String
  | StreamFrame.chunk (some s) _ => s
  | _ => ""

/- Concatenation, in order, of the `delta.content` of all frames. -/
def contentConcat : List StreamFrame → String
  | [] => ""
  | f :: fs => deltaText f ++ contentConcat fs

def strConcat : List String → String
  | [] => ""
  | s :: ss => s ++ strConcat ss

def isStopFrame : StreamFrame → Bool
  | StreamFrame.chunk _ (some r) => r == "stop"
  | _ => false

def countStop (fs : List StreamFrame) : Nat := (fs.filter isStopFrame).length

/- C2 as the claim states it, at one emitted frame sequence: exactly one
   chunk has `finishReason="stop"`, that chunk has an empty delta, and the
   `[DONE]` sentinel is the last frame. -/
def claimC2At (fs : List StreamFrame) : Prop :=
  countStop fs = 1 ∧
    (∀ f ∈ fs, isStopFrame f = true →
      f = StreamFrame.chunk none (some "stop")) ∧
    fs.getLast? = some StreamFrame.done

instance (fs : List StreamFrame) : Decidable (claimC2At fs) := by
  unfold claimC2At; infer_instance

/- Read windows used for the C1 counterexample: the two-byte UTF-8 encoding
   of the character é (0xC3 0xA9) straddles the 64-byte window boundary. -/
def c1Reads : List (List Nat) := [List.replicate 63 0x61 ++ [0xC3], [0xA9]]

/- The literal `sha256=` header tag (7 characters). -/
def sha256HeaderTag : List Char := ['s', 'h', 'a', '2', '5', '6', '=']

/- Model of `hmac.compare_digest`: constant-time equality, which as a
   function is string equality. -/
def compare_digest (a b : List Char) : Bool := a == b

def verify_github_signature (hexDigest : List Char → List Nat → List Char)
    (payload_body : List Nat) (signature_header : List Char)
    (secret : List Char) : Bool :=
  if signature_header.isEmpty then false
  else if sha256HeaderTag.isPrefixOf signature_header then
    compare_digest (signature_header.drop 7) (hexDigest secret payload_body)
  else false

/- A concrete digest function for the C3 witness: distinguishes the body
   `[1, 2]` from every other body. -/
def c3DigestStub : List Char → List Nat → List Char :=
  fun _ b => if b = [1, 2] then ['a'] else ['b']

/- GitHub integration data model (pydantic models in src/server.py).  The
   `Dict[str, Any]` fields `base`/`head`/`labels` are opaque to all the
   logic below and are modelled as string-keyed association lists;
   `Optional` fields are `Option`s. -/

abbrev JsonObj := List (String × String)

structure GitHubUser where
  login : String
  id : Int
  avatar_url : Option String
  html_url : Option String
deriving DecidableEq

structure GitHubRepository where
  id : Int
  name : String
  full_name : String
  html_url : String
  default_branch : String
  is_private : Bool
deriving DecidableEq

structure GitHubComment where
  id : Int
  body : String
  user : GitHubUser
  created_at : String
  updated_at : String
  html_url : String
deriving DecidableEq

structure GitHubPullRequest where
  id : Int
  number : Int
  title : String
  body : Option String
  state : String
  user : GitHubUser
  base : JsonObj
  head : JsonObj
  html_url : String
  diff_url : String
  patch_url : String
deriving DecidableEq

structure GitHubIssue where
  id : Int
  number : Int
  title : String
  body : Option String
  state : String
  user : GitHubUser
  html_url : String
  labels : List JsonObj
deriving DecidableEq

structure GitHubWebhookPayload where
  action : String
  repository : GitHubRepository
  sender : GitHubUser
  comment : Option GitHubComment
  pull_request : Option GitHubPullRequest
  issue : Option GitHubIssue
deriving DecidableEq

structure GitHubActionContext where
  event_type : String
  action : String
  repository : GitHubRepository
  sender : GitHubUser
  content : String
  pr_number : Option Int
  issue_number : Option Int
  comment_id : Option Int
  diff_content : Option String
  file_changes : Option (List String)
deriving DecidableEq

/- Trigger gating (`GitHubActionAdapter.should_respond`). -/

def trigger_phrases : List String :=
  ["@claude", "@ai", "/review", "/analyze", "/help", "/fix"]

/- Model of the Python substring test `needle in haystack`. -/
def containsSub (n : List Char) : List Char → Bool
  | [] => n.isEmpty
  | c :: t => n.isPrefixOf (c :: t) || containsSub n t

/- Model of `str.lower()` (ASCII case mapping, which covers every trigger
   phrase and every input considered here). -/
def pyLower (s : String) : List Char := s.toList.map Char.toLower

def should_respond (content : String) : Bool :=
  trigger_phrases.any (fun phrase => containsSub phrase.toList (pyLower content))

/- Webhook Event Normalizer (`GitHubActionAdapter.process_webhook`).  The
   diff fetch performed inside the PR branches is an external HTTP call; its
   result is passed in as `fetchDiff`. -/
def process_webhook (fetchDiff : GitHubPullRequest → Option String)
    (payload : GitHubWebhookPayload) : GitHubActionContext :=
  let context : GitHubActionContext :=
    { event_type := "unknown", action := payload.action,
      repository := payload.repository, sender := payload.sender,
      content := "", pr_number := none, issue_number := none,
      comment_id := none, diff_content := none, file_changes := none }
  match payload.comment with
  | some c =>
    let context := { context with
      content := c.body,
      comment_id := some c.id,
      event_type := "issue_comment" }
    match payload.pull_request with
    | some pr =>
      { context with
        pr_number := some pr.number,
        event_type := "pull_request_comment",
        diff_content := fetchDiff pr }
    | none => context
  | none =>
    match payload.pull_request with
    | some pr =>
      { context with
        content := "PR: " ++ pr.title ++ "\n\n" ++ pr.body.getD "",
        pr_number := some pr.number, event_type := "pull_request",
        diff_content := fetchDiff pr }
    | none =>
      match payload.issue with
      | some i =>
        { context with
          content := "Issue: " ++ i.title ++ "\n\n" ++ i.body.getD "",
          issue_number := some i.number, event_type := "issues" }
      | none => context

/- Post-classification decision of `handle_github_webhook` for a supported
   event with a schema-valid payload: the trigger gate runs only when the
   payload carries a comment; otherwise `create_response` is called, which
   invokes the backend subprocess. -/
inductive WebhookOutcome where
  | ignoredNoTrigger
  | processed (context : GitHubActionContext)
deriving DecidableEq

def handle_github_webhook_decision
    (fetchDiff : GitHubPullRequest → Option String)
    (payload : GitHubWebhookPayload) : WebhookOutcome :=
  let context := process_webhook fetchDiff payload
  if payload.comment.isSome && !(should_respond context.content) then
    WebhookOutcome.ignoredNoTrigger
  else WebhookOutcome.processed context

/- Concrete payloads used for the C5 counterexample and witnesses. -/

def demoUser : GitHubUser := ⟨"alice", 1, none, none⟩

def demoRepo : GitHubRepository :=
  ⟨10, "demo", "alice/demo", "https://example.com/alice/demo", "main", false⟩

def demoPR : GitHubPullRequest :=
  ⟨100, 7, "Update readme", none, "open", demoUser, [], [],
    "https://example.com/pr/7", "https://example.com/pr/7.diff",
    "https://example.com/pr/7.patch"⟩

/- A pull-request-level payload (no comment) whose content carries no
   trigger phrase. -/
def c5PrPayload : GitHubWebhookPayload :=
  ⟨"opened", demoRepo, demoUser, none, some demoPR, none⟩

def demoComment : GitHubComment :=
  ⟨55, "just a note", demoUser, "2024-01-01", "2024-01-01",
    "https://example.com/c/55"⟩

/- An issue-comment payload whose comment carries no trigger phrase. -/
def c5CommentPayload : GitHubWebhookPayload :=
  ⟨"created", demoRepo, demoUser, some demoComment, none, none⟩

/- Diff fetch (`GitHubActionAdapter._fetch_pr_diff`).  The HTTP GET to the
   pull request's diff resource is external; its observed outcome (an HTTP
   response, or a raised transport exception with a message) is an argument. -/

inductive DiffFetchOutcome where
  | response (status_code : Nat) (text : String)
  | transportError (message : String)
deriving DecidableEq

/- Reference truncation bound: `max_diff_size = 10000` in the source. -/
def max_diff_size : Nat := 10000

def fetch_pr_diff (pr : GitHubPullRequest) : DiffFetchOutcome → String
  | DiffFetchOutcome.response status text =>
    if status = 200 then
      if text.length > max_diff_size then
        text.take max_diff_size ++ "\n\n... (diff truncated for performance)"
      else text
    else
      "# Could not fetch diff for PR #" ++ toString pr.number ++
        " (Status: " ++ toString status ++ ")"
  | DiffFetchOutcome.transportError msg =>
    "# Error fetching diff for PR #" ++ toString pr.number ++ ": " ++ msg

/- Message Normalizer (`ChatMessage.content_text` and
   `ClaudeBridgeAdapter.process_messages`).  A content part is seen by the
   adapter as a mapping with optional `type` and `text` keys (the pydantic
   `ContentPart` branch behaves identically: a missing/None `text` becomes
   the empty string). -/

structure ContentPart where
  type : Option String
  text : Option String
deriving DecidableEq

inductive MessageContent where
  | str (s : String)
  | parts (ps : List ContentPart)
deriving DecidableEq

/- The `text_parts` list built by the loop in `content_text`: every part
   whose type is `text` contributes `part.get("text", "")`. -/
def content_text_parts : List ContentPart → List String
  | [] => []
  | p :: ps =>
    if p.type = some "text" then p.text.getD "" :: content_text_parts ps
    else content_text_parts ps

def content_text : MessageContent → String
  | MessageContent.str s => s
  | MessageContent.parts ps => String.intercalate " " (content_text_parts ps)

structure ChatMessage where
  role : String
  content : MessageContent
  name : Option String
deriving DecidableEq

/- The line contributed by one message to the prompt in
   `process_messages`: the three known roles produce a labelled line, any
   other role produces nothing. -/
def roleLine (m : ChatMessage) : Option String :=
  if m.role = "system" then some ("System: " ++ content_text m.content)
  else if m.role = "user" then some ("User: " ++ content_text m.content)
  else if m.role = "assistant" then
    some ("Assistant: " ++ content_text m.content)
  else none

def prompt_parts : List ChatMessage → List String
  | [] => []
  | m :: ms =>
    match roleLine m with
    | some line => line :: prompt_parts ms
    | none => prompt_parts ms

def process_messages (messages : List ChatMessage) : String :=
  String.intercalate "\n\n" (prompt_parts messages)

def c7Parts : List ContentPart :=
  [⟨some "text", some "a"⟩, ⟨some "text", none⟩, ⟨some "text", some "b"⟩]

/- Python text/number primitives used by `_parse_metadata` and the usage
   estimate.  Whitespace is the ASCII whitespace set Python strips (the
   inputs of interest contain no other whitespace). -/

def isPyWs (c : Char) : Bool :=
  c = ' ' || c = '\t' || c = '\n' || c = '\r' || c = '\x0b' || c = '\x0c'

def pyStripLeft (l : List Char) : List Char := l.dropWhile isPyWs

def pyStripRight (l : List Char) : List Char :=
  (l.reverse.dropWhile isPyWs).reverse

/- Model of `str.strip()`. -/
def pyStrip (l : List Char) : List Char := pyStripRight (pyStripLeft l)

/- Model of `str.rstrip('s')`: removes every trailing `s`. -/
def pyRstripS (l : List Char) : List Char :=
  (l.reverse.dropWhile (fun c => c = 's')).reverse

/- Model of `str.split(sep)` for a one-character separator: Python keeps
   empty fields, and `''.split(sep) == ['']`. -/
def pySplitChar (sep : Char) : List Char → List (List Char)
  | [] => [[]]
  | c :: cs =>
    if c = sep then [] :: pySplitChar sep cs
    else
      match pySplitChar sep cs with
      | [] => [[c]]
      | h :: t => (c :: h) :: t

def digitVal (c : Char) : Option Nat :=
  if '0' ≤ c ∧ c ≤ '9' then some (c.toNat - '0'.toNat) else none

/- Consumes a maximal run of decimal digits, returning their value, how
   many there were, and the rest of the input. -/
def takeDigitsAux (acc : Nat) (n : Nat) : List Char → Nat × Nat × List Char
  | [] => (acc, n, [])
  | c :: cs =>
    match digitVal c with
    | some d => takeDigitsAux (acc * 10 + d) (n + 1) cs
    | none => (acc, n, c :: cs)

/- Exact decimal value `num / 10 ^ exp10`; the model of the Python floats
   that `_parse_metadata` produces from decimal text.  Arithmetic on these
   is exact, which agrees with the binary floating point the code uses at
   every input considered in the theorems below. -/
structure Dec where
  num : Int
  exp10 : Nat
deriving DecidableEq

/- Model of Python `float(s)` on decimal/exponent literals (the forms
   `[ws] [sign] digits [. digits] [(e|E) [sign] digits] [ws]`, also with the
   integer digits or the fractional digits absent but not both).  The
   special forms `inf`/`nan` and underscore separators are not modelled;
   inputs that use them are outside every statement below. -/
def pyFloat (l : List Char) : Option Dec :=
  let l1 := l.dropWhile isPyWs
  let sl2 : Int × List Char :=
    match l1 with
    | '+' :: rest => (1, rest)
    | '-' :: rest => (-1, rest)
    | _ => (1, l1)
  let sgn := sl2.1
  let l2 := sl2.2
  let ipr := takeDigitsAux 0 0 l2
  let ip := ipr.1
  let ipn := ipr.2.1
  let l3 := ipr.2.2
  let fpr :=
    match l3 with
    | '.' :: rest => takeDigitsAux 0 0 rest
    | _ => (0, 0, l3)
  let fp := fpr.1
  let fpn := fpr.2.1
  let l4 :=
    match l3 with
    | '.' :: _ => fpr.2.2
    | _ => l3
  if ipn = 0 ∧ fpn = 0 then none
  else
    let mantissa : Int := sgn * ((ip * 10 ^ fpn : Nat) + fp)
    match l4 with
    | 'e' :: erest | 'E' :: erest =>
      let esl : Int × List Char :=
        match erest with
        | '+' :: r => (1, r)
        | '-' :: r => (-1, r)
        | _ => (1, erest)
      let epr := takeDigitsAux 0 0 esl.2
      if epr.2.1 = 0 then none
      else if (epr.2.2).dropWhile isPyWs = [] then
        if esl.1 = 1 then
          if fpn ≤ epr.1 then some ⟨mantissa * 10 ^ (epr.1 - fpn), 0⟩
          else some ⟨mantissa, fpn - epr.1⟩
        else some ⟨mantissa, fpn + epr.1⟩
      else none
    | _ =>
      if l4.dropWhile isPyWs = [] then some ⟨mantissa, fpn⟩ else none

/- Model of Python `int(s)`: `[ws] [sign] digits [ws]`. -/
def pyInt (l : List Char) : Option Int :=
  let l1 := l.dropWhile isPyWs
  let sl2 : Int × List Char :=
    match l1 with
    | '+' :: rest => (1, rest)
    | '-' :: rest => (-1, rest)
    | _ => (1, l1)
  let dpr := takeDigitsAux 0 0 sl2.2
  if dpr.2.1 = 0 then none
  else if (dpr.2.2).dropWhile isPyWs = [] then some (sl2.1 * dpr.1) else none

/- Truncation toward zero, the behaviour of Python `int()` on a float; the
   divisor is always positive here. -/
def truncQuot (a b : Int) : Int := if 0 ≤ a then a / b else -((-a) / b)

/- Model of `int(x * 1000)` for the exact decimal `x`, in exact decimal
   arithmetic.  The program computes `int(float(x) * 1000)` in binary64,
   which can differ from the exact value only when `x * 1000` is exactly an
   integer `n`: `float(x)` and the product are each correctly rounded
   (relative error below `2.3e-16`), so when `x * 1000 = N / 10^j` in lowest
   terms with `j ≥ 1` and `|N| < 10^15`, the computed product sits strictly
   between the integers flanking the exact value and truncation agrees;
   at an exact integer the product may round to just below `n` and truncate
   to `n - 1` (Python: `int(float("1.015") * 1000) = 1014`, not 1015).
   The theorems below therefore invoke this model only under hypotheses
   (`x * 1000` not an integer, mantissa at most `10^12`) that put the input
   in the agreement region. -/
def dec_mul1000_int (d : Dec) : Int :=
  truncQuot (d.num * 1000) ((10 : Int) ^ d.exp10)

/- Spec-side rounding `round(x * 1000)` (round half up), used only to state
   what the claim asserts. -/
def dec_mul1000_round (d : Dec) : Int :=
  Int.fdiv (2 * (d.num * 1000) + (10 : Int) ^ d.exp10)
    (2 * (10 : Int) ^ d.exp10)

/- Model of `s.split()` (no separator): maximal runs of non-whitespace;
   `cur` accumulates the current word in reverse. -/
def pyWordsAux (cur : List Char) : List Char → List (List Char)
  | [] => if cur.isEmpty then [] else [cur.reverse]
  | c :: cs =>
    if isPyWs c then
      if cur.isEmpty then pyWordsAux [] cs
      else cur.reverse :: pyWordsAux [] cs
    else pyWordsAux (c :: cur) cs

def pyWords (l : List Char) : List (List Char) := pyWordsAux [] l

def word_count (s : String) : Nat := (pyWords s.toList).length

/- Response Composer usage estimate (`non_streaming_chat_completion`): the
   products `wordCount * 1.3` are held exactly in tenths, and `int(...)`
   truncates; `total_tokens = int(prompt_tokens + completion_tokens)` is
   computed on the un-truncated sum, exactly as in the source. -/
structure Usage where
  prompt_tokens : Int
  completion_tokens : Int
  total_tokens : Int
deriving DecidableEq

def completion_usage (prompt response_text : String) : Usage :=
  let ptTenths : Nat := 13 * word_count prompt
  let ctTenths : Nat := 13 * word_count response_text
  ⟨(ptTenths / 10 : Nat), (ctTenths / 10 : Nat), ((ptTenths + ctTenths) / 10 : Nat)⟩

/- Metadata extraction (`ClaudeBridgeAdapter._parse_metadata`). -/

structure SessionMetadata where
  session_id : String
  cost_usd : Dec
  duration_ms : Int
  num_turns : Int
deriving DecidableEq

/- Defaults `{"session_id": "", "cost_usd": 0.0, "duration_ms": 0,
   "num_turns": 1}`. -/
def metadataDefaults : SessionMetadata := ⟨"", ⟨0, 0⟩, 0, 1⟩

def costMarker : List Char := ['C', 'o', 's', 't', ':']
def timeMarker : List Char := ['T', 'i', 'm', 'e', ':']
def turnsMarker : List Char := ['T', 'u', 'r', 'n', 's', ':']
def sessionMarker : List Char :=
  ['#', ' ', 'S', 'e', 's', 's', 'i', 'o', 'n', ':']

/- Processing of one `|`-delimited segment: each branch parses inside a
   `try`/`except: pass`, so a failing parse (modelled by `none`) leaves the
   metadata unchanged. -/
def parseSegment (m : SessionMetadata) (rawPart : List Char) :
    SessionMetadata :=
  let part := pyStrip rawPart
  if containsSub costMarker part then
    match (pySplitChar '$' part).get? 1 with
    | some s =>
      match pyFloat s with
      | some q => { m with cost_usd := q }
      | none => m
    | none => m
  else if containsSub timeMarker part then
    match (pySplitChar ':' part).get? 1 with
    | some s =>
      match pyFloat (pyRstripS s) with
      | some q => { m with duration_ms := dec_mul1000_int q }
      | none => m
    | none => m
  else if containsSub turnsMarker part then
    match (pySplitChar ':' part).get? 1 with
    | some s =>
      match pyInt s with
      | some n => { m with num_turns := n }
      | none => m
    | none => m
  else m

def parseLine (m : SessionMetadata) (line : List Char) : SessionMetadata :=
  if sessionMarker.isPrefixOf line then
    (pySplitChar '|' line).foldl parseSegment m
  else m

def parse_metadata (stderr : List Char) : SessionMetadata :=
  (pySplitChar '\n' stderr).foldl parseLine metadataDefaults

def c8Stderr : List Char := "# Session: abc | Time: 0.0016s".toList

/- Characters a decimal/exponent float literal can consist of; every
   string `pyFloat` accepts is built from these plus whitespace, and the C8
   theorem quantifies over duration texts made of them. -/
def c8FloatChars : List Char :=
  ['0', '1', '2', '3', '4', '5', '6', '7', '8', '9', '.', '+', '-', 'e', 'E']

lemma contentConcat_append (a b : List StreamFrame) :
    contentConcat (a ++ b) = contentConcat a ++ contentConcat b := by
  induction a with
  | nil => simp [contentConcat]
  | cons f fs ih => simp [contentConcat, ih, String.append_assoc]

lemma sseStep_flush {buf p : String} (fs : List StreamFrame)
    (h : (buf ++ p).length > flushThreshold) :
    sseStep (buf, fs) p = ("", fs ++ [StreamFrame.chunk (some (buf ++ p)) none]) := by
  simp only [sseStep]
  rw [if_pos h]

lemma sseStep_keep {buf p : String} (fs : List StreamFrame)
    (h : ¬ (buf ++ p).length > flushThreshold) :
    sseStep (buf, fs) p = (buf ++ p, fs) := by
  simp only [sseStep]
  rw [if_neg h]

lemma sse_foldl_concat (pieces : List String) (buf : String)
    (fs : List StreamFrame) :
    contentConcat ((pieces.foldl sseStep (buf, fs)).2) ++
        (pieces.foldl sseStep (buf, fs)).1
      = contentConcat fs ++ (buf ++ strConcat pieces) := by
  induction pieces generalizing buf fs with
  | nil => simp [strConcat]
  | cons p ps ih =>
    rw [List.foldl_cons]
    by_cases h : (buf ++ p).length > flushThreshold
    · rw [sseStep_flush fs h, ih]
      simp [contentConcat_append, contentConcat, deltaText, strConcat,
        String.append_assoc]
    · rw [sseStep_keep fs h, ih]
      simp [strConcat, String.append_assoc]

lemma sse_foldl_no_stop (pieces : List String) (buf : String)
    (fs : List StreamFrame) (h : ∀ f ∈ fs, isStopFrame f = false) :
    ∀ f ∈ (pieces.foldl sseStep (buf, fs)).2, isStopFrame f = false := by
  induction pieces generalizing buf fs with
  | nil => simpa using h
  | cons p ps ih =>
    rw [List.foldl_cons]
    by_cases hl : (buf ++ p).length > flushThreshold
    · rw [sseStep_flush fs hl]
      refine ih _ _ ?_
      intro f hf
      rcases List.mem_append.mp hf with hf | hf
      · exact h f hf
      · simp at hf
        subst hf
        rfl
    · rw [sseStep_keep fs hl]
      exact ih _ _ h

lemma streamBody_no_stop (reads : List (List Nat)) :
    ∀ f ∈ (streamBody reads).2, isStopFrame f = false := by
  unfold streamBody
  exact sse_foldl_no_stop _ _ _ (by simp)

lemma filter_stop_nil {fs : List StreamFrame}
    (h : ∀ f ∈ fs, isStopFrame f = false) : fs.filter isStopFrame = [] := by
  simp only [List.filter_eq_nil_iff]
  intro f hf
  simp [h f hf]

lemma getLast?_append_pair (l : List StreamFrame) (a b : StreamFrame) :
    (l ++ [a, b]).getLast? = some b := by
  have h : l ++ [a, b] = (l ++ [a]) ++ [b] := by simp
  rw [h]
  exact List.getLast?_concat _

lemma streamBody_concat (reads : List (List Nat)) :
    contentConcat (streamBody reads).2 ++ (streamBody reads).1
      = strConcat (reads.map decodeReplace) := by
  have h := sse_foldl_concat (reads.map decodeReplace) "" []
  simpa [streamBody, contentConcat] using h

/-- C1 (counterexample): with the reference 64-byte read window, the
two-byte UTF-8 character é split across two read windows is decoded as two
replacement characters, so the concatenation of the emitted `delta.content`
fields differs from the decoding of the full subprocess stdout: the claim
fails as stated.  Both reads are valid `read(64)` results (non-empty, at
most 64 bytes). -/
theorem c1_counterexample :
    (∀ r ∈ c1Reads, r.length ≤ 64 ∧ r ≠ []) ∧
      contentConcat (stream_chat_completion c1Reads) ≠
        decodeReplace c1Reads.flatten := by
  decide

/-- C1 (amended): for every streaming chat completion with the reference
read window and flush threshold, the concatenation in order of the
`delta.content` fields of all emitted content chunks equals, exactly once,
the concatenation of the per-read-window decodings of the subprocess stdout
bytes (each window decoded independently with replacement, as the code
does); no decoded text is lost and none is duplicated, regardless of how
the output is split across reads and flushes. -/
theorem c1_theorem (reads : List (List Nat)) :
    contentConcat (stream_chat_completion reads) =
      strConcat (reads.map decodeReplace) := by
  have key := streamBody_concat reads
  unfold stream_chat_completion
  rw [contentConcat_append, contentConcat_append]
  by_cases h : (streamBody reads).1 = ""
  · rw [if_pos h]
    rw [h] at key
    simp only [contentConcat, deltaText] at key ⊢
    simpa using key
  · rw [if_neg h]
    simp only [contentConcat, deltaText] at key ⊢
    rw [← key]
    simp [String.append_assoc]

/-- C2 (counterexample): on the internal-error path the single chunk with
`finishReason="stop"` carries the error text as its delta content, not an
empty delta, so the claim fails as stated. -/
theorem c2_counterexample :
    ¬ claimC2At (stream_chat_completion_error [] "subprocess failed") := by
  decide

/-- C2 (amended): on the normal path and on the internal-error path alike,
exactly one emitted chunk has `finishReason="stop"` and the end-of-stream
sentinel `data: [DONE]` is the last frame; on the normal path that stop
chunk carries an empty delta, while on the internal-error path it carries
the error message as its delta content. -/
theorem c2_theorem (reads : List (List Nat)) (errMsg : String) :
    claimC2At (stream_chat_completion reads) ∧
      countStop (stream_chat_completion_error reads errMsg) = 1 ∧
      (∀ f ∈ stream_chat_completion_error reads errMsg,
        isStopFrame f = true →
          f = StreamFrame.chunk (some ("Ошибка: " ++ errMsg)) (some "stop")) ∧
      (stream_chat_completion_error reads errMsg).getLast? =
        some StreamFrame.done := by
  have hA := streamBody_no_stop reads
  have hOpt : ∀ f ∈ (if (streamBody reads).1 = "" then ([] : List StreamFrame)
      else [StreamFrame.chunk (some (streamBody reads).1) none]),
      isStopFrame f = false := by
    by_cases h : (streamBody reads).1 = "" <;> simp [h, isStopFrame]
  refine ⟨⟨?_, ?_, ?_⟩, ?_, ?_, ?_⟩
  · unfold stream_chat_completion countStop
    rw [List.filter_append, List.filter_append, filter_stop_nil hA,
      filter_stop_nil hOpt]
    simp [isStopFrame]
  · intro f hf hstop
    unfold stream_chat_completion at hf
    rcases List.mem_append.mp hf with hf | hf
    · rcases List.mem_append.mp hf with hf | hf
      · rw [hA f hf] at hstop; cases hstop
      · rw [hOpt f hf] at hstop; cases hstop
    · simp only [List.mem_cons, List.mem_singleton] at hf
      rcases hf with rfl | rfl | h
      · rfl
      · cases hstop
      · cases h
  · unfold stream_chat_completion
    exact getLast?_append_pair _ _ _
  · unfold stream_chat_completion_error countStop
    rw [List.filter_append, filter_stop_nil hA]
    simp [isStopFrame]
  · intro f hf hstop
    unfold stream_chat_completion_error at hf
    rcases List.mem_append.mp hf with hf | hf
    · rw [hA f hf] at hstop; cases hstop
    · simp only [List.mem_cons, List.mem_singleton] at hf
      rcases hf with rfl | rfl | h
      · rfl
      · cases hstop
      · cases h
  · unfold stream_chat_completion_error
    exact getLast?_append_pair _ _ _

/-- C2 (amended) instantiated at a concrete input: one read of a single
byte `a` on the normal path, and the error message `boom` on the error
path; the uniqueness conjunct is discharged at the terminal chunk itself. -/
theorem c2_theorem_witness :
    claimC2At (stream_chat_completion [[0x61]]) ∧
      (stream_chat_completion_error [[0x61]] "boom").getLast? =
        some StreamFrame.done ∧
      StreamFrame.chunk (some ("Ошибка: " ++ "boom")) (some "stop") =
        StreamFrame.chunk (some ("Ошибка: " ++ "boom")) (some "stop") :=
  ⟨(c2_theorem [[0x61]] "boom").1, (c2_theorem [[0x61]] "boom").2.2.2,
    (c2_theorem [[0x61]] "boom").2.2.1
      (StreamFrame.chunk (some ("Ошибка: " ++ "boom")) (some "stop"))
      (by decide) (by decide)⟩

lemma isPrefixOf_append_self (a b : List Char) :
    a.isPrefixOf (a ++ b) = true := by
  induction a with
  | nil => simp [List.isPrefixOf]
  | cons x xs ih => simp [List.isPrefixOf, ih]

lemma exists_of_isPrefixOf {a l : List Char} (h : a.isPrefixOf l = true) :
    ∃ t, l = a ++ t := by
  induction a generalizing l with
  | nil => exact ⟨l, rfl⟩
  | cons x xs ih =>
    cases l with
    | nil => simp [List.isPrefixOf] at h
    | cons y ys =>
      simp only [List.isPrefixOf, Bool.and_eq_true, beq_iff_eq] at h
      obtain ⟨t, ht⟩ := ih h.2
      exact ⟨t, by simp [h.1, ht]⟩

lemma verify_github_signature_iff
    (hexDigest : List Char → List Nat → List Char) (payload_body : List Nat)
    (signature_header : List Char) (secret : List Char) :
    verify_github_signature hexDigest payload_body signature_header secret
        = true ↔
      signature_header = sha256HeaderTag ++ hexDigest secret payload_body := by
  unfold verify_github_signature
  constructor
  · intro h
    by_cases he : signature_header.isEmpty
    · rw [if_pos he] at h; cases h
    · rw [if_neg he] at h
      by_cases hp : sha256HeaderTag.isPrefixOf signature_header = true
      · rw [if_pos hp] at h
        obtain ⟨t, ht⟩ := exists_of_isPrefixOf hp
        subst ht
        have hd : (sha256HeaderTag ++ t).drop 7 = t := rfl
        rw [hd] at h
        simp only [compare_digest, beq_iff_eq] at h
        rw [h]
      · simp only [Bool.not_eq_true] at hp
        rw [hp] at h
        cases h
  · intro h
    subst h
    have he : (sha256HeaderTag ++ hexDigest secret payload_body).isEmpty
        = false := rfl
    rw [he]
    simp only [Bool.false_eq_true, if_false]
    rw [if_pos (isPrefixOf_append_self _ _)]
    have hd : (sha256HeaderTag ++ hexDigest secret payload_body).drop 7
        = hexDigest secret payload_body := rfl
    rw [hd]
    simp [compare_digest]

/-- C3 (confirmed): `verify(body, header, secret)` returns true iff the
header equals `sha256=` followed by the keyed-hash hex digest of the body;
an absent (empty) header yields false, a header lacking the `sha256=` tag
yields false, any header differing from the unique accepted one (in
particular any digest mutation) yields false, and any body mutation that
changes the digest yields false.  The function is total, so it never raises
on malformed input.  `hexDigest` is universally quantified, so this holds
for the standard-library HMAC-SHA256 in particular. -/
theorem c3_theorem (hexDigest : List Char → List Nat → List Char)
    (payload_body : List Nat) (signature_header : List Char)
    (secret : List Char) :
    (verify_github_signature hexDigest payload_body signature_header secret
        = true ↔
      signature_header = sha256HeaderTag ++ hexDigest secret payload_body) ∧
      verify_github_signature hexDigest payload_body [] secret = false ∧
      (sha256HeaderTag.isPrefixOf signature_header = false →
        verify_github_signature hexDigest payload_body signature_header
          secret = false) ∧
      (∀ body2 : List Nat,
        hexDigest secret body2 ≠ hexDigest secret payload_body →
          verify_github_signature hexDigest body2
            (sha256HeaderTag ++ hexDigest secret payload_body) secret
            = false) ∧
      verify_github_signature hexDigest payload_body
        (sha256HeaderTag ++ hexDigest secret payload_body) secret = true := by
  refine ⟨verify_github_signature_iff _ _ _ _, rfl, ?_, ?_, ?_⟩
  · intro hp
    unfold verify_github_signature
    by_cases he : signature_header.isEmpty
    · rw [if_pos he]
    · rw [if_neg he, hp]
      simp
  · intro body2 hne
    by_contra hcon
    simp only [Bool.not_eq_false] at hcon
    have := (verify_github_signature_iff hexDigest body2 _ secret).mp hcon
    exact hne (List.append_cancel_left this.symm)
  · exact (verify_github_signature_iff hexDigest payload_body _ secret).mpr
      rfl

/-- C3 instantiated at concrete inputs: a matching header verifies, a
header without the tag is rejected, and a mutated body (whose digest
differs) is rejected. -/
theorem c3_theorem_witness :
    verify_github_signature c3DigestStub [1, 2]
        (sha256HeaderTag ++ c3DigestStub ['k'] [1, 2]) ['k'] = true ∧
      verify_github_signature c3DigestStub [1, 2] ['x'] ['k'] = false ∧
      verify_github_signature c3DigestStub [3]
        (sha256HeaderTag ++ c3DigestStub ['k'] [1, 2]) ['k'] = false :=
  ⟨(c3_theorem c3DigestStub [1, 2]
      (sha256HeaderTag ++ c3DigestStub ['k'] [1, 2]) ['k']).2.2.2.2,
    (c3_theorem c3DigestStub [1, 2] ['x'] ['k']).2.2.1 (by decide),
    (c3_theorem c3DigestStub [1, 2]
      (sha256HeaderTag ++ c3DigestStub ['k'] [1, 2]) ['k']).2.2.2.1 [3]
      (by decide)⟩

/-- C4 (confirmed): a payload with both `comment` and `pullRequest` present
classifies as `pull_request_comment` (never `issue_comment`), with content
the comment body, `prNumber` the pull request number and `commentId` the
comment id; a payload with a comment and no pull request classifies as
`issue_comment`. -/
theorem c4_theorem (fetchDiff : GitHubPullRequest → Option String)
    (action : String) (repo : GitHubRepository) (sender : GitHubUser)
    (c : GitHubComment) (pr : GitHubPullRequest)
    (iss : Option GitHubIssue) :
    (process_webhook fetchDiff
        ⟨action, repo, sender, some c, some pr, iss⟩).event_type
        = "pull_request_comment" ∧
      (process_webhook fetchDiff
        ⟨action, repo, sender, some c, some pr, iss⟩).content = c.body ∧
      (process_webhook fetchDiff
        ⟨action, repo, sender, some c, some pr, iss⟩).pr_number
        = some pr.number ∧
      (process_webhook fetchDiff
        ⟨action, repo, sender, some c, some pr, iss⟩).comment_id
        = some c.id ∧
      (process_webhook fetchDiff
        ⟨action, repo, sender, some c, none, iss⟩).event_type
        = "issue_comment" := by
  refine ⟨?_, ?_, ?_, ?_, ?_⟩ <;> simp [process_webhook]

/-- C5 (counterexample): a supported pull-request-level webhook with no
comment and no trigger phrase in its normalized content (`PR: Update
readme`) is still processed — `create_response` is called and the backend
subprocess is invoked — because the trigger gate in
`handle_github_webhook` only runs when the payload carries a comment.  The
claim fails as stated. -/
theorem c5_counterexample :
    should_respond ((process_webhook (fun _ => none) c5PrPayload).content)
        = false ∧
      handle_github_webhook_decision (fun _ => none) c5PrPayload =
        WebhookOutcome.processed (process_webhook (fun _ => none)
          c5PrPayload) := by
  decide

/-- C5 (amended): the trigger gate applies only to payloads that carry a
comment: a comment-bearing webhook whose normalized content contains no
trigger phrase is acknowledged without a backend invocation, while a
payload without a comment (pull-request-level or issue-level) proceeds to
the backend regardless of trigger phrases, as does any payload whose
content does contain a trigger phrase. -/
theorem c5_theorem (fetchDiff : GitHubPullRequest → Option String)
    (payload : GitHubWebhookPayload) :
    (payload.comment.isSome = true →
      should_respond ((process_webhook fetchDiff payload).content) = false →
      handle_github_webhook_decision fetchDiff payload =
        WebhookOutcome.ignoredNoTrigger) ∧
      (payload.comment = none →
        handle_github_webhook_decision fetchDiff payload =
          WebhookOutcome.processed (process_webhook fetchDiff payload)) ∧
      (should_respond ((process_webhook fetchDiff payload).content) = true →
        handle_github_webhook_decision fetchDiff payload =
          WebhookOutcome.processed (process_webhook fetchDiff payload)) := by
  refine ⟨?_, ?_, ?_⟩
  · intro hc hnr
    unfold handle_github_webhook_decision
    simp [hc, hnr]
  · intro hc
    unfold handle_github_webhook_decision
    simp [hc]
  · intro hr
    unfold handle_github_webhook_decision
    simp [hr]

/-- C5 (amended) instantiated concretely: a no-trigger issue comment is
ignored, and a no-comment pull-request payload is processed. -/
theorem c5_theorem_witness :
    handle_github_webhook_decision (fun _ => none) c5CommentPayload =
        WebhookOutcome.ignoredNoTrigger ∧
      handle_github_webhook_decision (fun _ => none) c5PrPayload =
        WebhookOutcome.processed (process_webhook (fun _ => none)
          c5PrPayload) :=
  ⟨(c5_theorem (fun _ => none) c5CommentPayload).1 (by decide) (by decide),
    (c5_theorem (fun _ => none) c5PrPayload).2.1 (by decide)⟩

/-- C6 (confirmed): a diff fetch that ends in a non-success HTTP status or
in a transport exception returns a short placeholder string naming the PR
number and the failure reason (the status code, or the exception text)
instead of raising; `fetch_pr_diff` is a total function into strings, so
webhook processing is never aborted by diff unavailability. -/
theorem c6_theorem (pr : GitHubPullRequest) (status : Nat) (text : String)
    (msg : String) :
    (status ≠ 200 →
      fetch_pr_diff pr (DiffFetchOutcome.response status text) =
        "# Could not fetch diff for PR #" ++ toString pr.number ++
          " (Status: " ++ toString status ++ ")") ∧
      fetch_pr_diff pr (DiffFetchOutcome.transportError msg) =
        "# Error fetching diff for PR #" ++ toString pr.number ++ ": "
          ++ msg := by
  constructor
  · intro h
    simp [fetch_pr_diff, h]
  · rfl

/-- C6 instantiated concretely: a 404 response and a timeout exception for
PR #7 both yield the documented placeholder strings. -/
theorem c6_theorem_witness :
    fetch_pr_diff demoPR (DiffFetchOutcome.response 404 "irrelevant") =
        "# Could not fetch diff for PR #7 (Status: 404)" ∧
      fetch_pr_diff demoPR (DiffFetchOutcome.transportError "timeout") =
        "# Error fetching diff for PR #7: timeout" := by
  constructor
  · have h := (c6_theorem demoPR 404 "irrelevant" "timeout").1 (by decide)
    rw [h]
    decide
  · have h := (c6_theorem demoPR 404 "irrelevant" "timeout").2
    rw [h]
    decide

/-- C7 (counterexample): a text-typed part with no `text` field contributes
an empty string to the space-join, so the flattened text acquires a doubled
separator (`"a  b"`), which differs from joining only the present text
fields (`"a b"`): the claim that such a part contributes nothing to the
result fails as stated. -/
theorem c7_counterexample :
    content_text (MessageContent.parts c7Parts) = "a  b" ∧
      String.intercalate " " (c7Parts.filterMap fun p =>
        if p.type = some "text" then p.text else none) = "a b" ∧
      content_text (MessageContent.parts c7Parts) ≠
        String.intercalate " " (c7Parts.filterMap fun p =>
          if p.type = some "text" then p.text else none) := by
  decide

lemma content_text_parts_eq (ps : List ContentPart) :
    content_text_parts ps =
      (ps.filter fun q => q.type == some "text").map fun q => q.text.getD "" := by
  induction ps with
  | nil => rfl
  | cons p ps ih =>
    by_cases h : p.type = some "text"
    · simp [content_text_parts, List.filter_cons, h, ih]
    · simp [content_text_parts, List.filter_cons, h, ih]

lemma content_text_parts_append (a b : List ContentPart) :
    content_text_parts (a ++ b) =
      content_text_parts a ++ content_text_parts b := by
  induction a with
  | nil => rfl
  | cons p ps ih =>
    by_cases h : p.type = some "text" <;> simp [content_text_parts, h, ih]

/-- C7 (amended): flattening a parts sequence joins, by a single space, one
entry per part whose type is `"text"` — the part's `text` field, or the
empty string when the `text` field is absent (so an absent text field still
contributes an empty join entry); parts whose type is not `"text"` are
ignored entirely, leaving the result unchanged. -/
theorem c7_theorem (ps ps1 ps2 : List ContentPart) (p : ContentPart)
    (h : p.type ≠ some "text") :
    content_text (MessageContent.parts ps) =
      String.intercalate " "
        ((ps.filter fun q => q.type == some "text").map
          fun q => q.text.getD "") ∧
      content_text (MessageContent.parts (ps1 ++ p :: ps2)) =
        content_text (MessageContent.parts (ps1 ++ ps2)) := by
  constructor
  · simp [content_text, content_text_parts_eq]
  · simp only [content_text, content_text_parts_append, content_text_parts, h,
      if_neg, if_false]

/-- C7 (amended) instantiated concretely: the double-space example, and the
deletion of an image part from a parts sequence. -/
theorem c7_theorem_witness :
    content_text (MessageContent.parts c7Parts) =
      String.intercalate " "
        ((c7Parts.filter fun q => q.type == some "text").map
          fun q => q.text.getD "") ∧
      content_text (MessageContent.parts
          ([⟨some "text", some "a"⟩] ++ ⟨some "image", none⟩ :: [])) =
        content_text (MessageContent.parts ([⟨some "text", some "a"⟩] ++ [])) :=
  ⟨(c7_theorem c7Parts [] [] ⟨some "image", none⟩ (by decide)).1,
    (c7_theorem c7Parts [⟨some "text", some "a"⟩] []
      ⟨some "image", none⟩ (by decide)).2⟩

lemma prompt_parts_append (a b : List ChatMessage) :
    prompt_parts (a ++ b) = prompt_parts a ++ prompt_parts b := by
  induction a with
  | nil => rfl
  | cons x xs ih => cases hx : roleLine x <;> simp [prompt_parts, hx, ih]

/-- C10 (confirmed): the role field is an arbitrary string at the public
interface, and a message whose role is none of `system`/`user`/`assistant`
contributes no line to the flattened prompt — deleting it from the message
list leaves `process_messages` unchanged, rather than being rejected or
raising. -/
theorem c10_theorem (ms1 ms2 : List ChatMessage) (m : ChatMessage)
    (h1 : m.role ≠ "system") (h2 : m.role ≠ "user")
    (h3 : m.role ≠ "assistant") :
    process_messages (ms1 ++ m :: ms2) = process_messages (ms1 ++ ms2) := by
  have hr : roleLine m = none := by simp [roleLine, h1, h2, h3]
  unfold process_messages
  rw [prompt_parts_append, prompt_parts_append]
  have hm : prompt_parts (m :: ms2) = prompt_parts ms2 := by
    simp [prompt_parts, hr]
  rw [hm]

/-- C10 instantiated concretely: a `tool`-role message between a user and
an assistant message is silently omitted from the prompt. -/
theorem c10_theorem_witness :
    process_messages
        ([⟨"user", MessageContent.str "hi", none⟩] ++
          ⟨"tool", MessageContent.str "x", none⟩ ::
            [⟨"assistant", MessageContent.str "ok", none⟩]) =
      process_messages
        ([⟨"user", MessageContent.str "hi", none⟩] ++
          [⟨"assistant", MessageContent.str "ok", none⟩]) :=
  c10_theorem [⟨"user", MessageContent.str "hi", none⟩]
    [⟨"assistant", MessageContent.str "ok", none⟩]
    ⟨"tool", MessageContent.str "x", none⟩
    (by decide) (by decide) (by decide)

/-- C9 (counterexample): for the prompt `a b c` (3 words) and response
`d e f` (3 words) the code computes `int(3 * 1.3) = 3` prompt tokens where
the claim's `round(3 × 1.3) = 4`, and `total_tokens = int(3.9 + 3.9) = 7`
where `prompt_tokens + completion_tokens = 6`: both equalities of the claim
fail as stated. -/
theorem c9_counterexample :
    completion_usage "a b c" "d e f" = ⟨3, 3, 7⟩ ∧
      ((13 * word_count "a b c" + 5) / 10 : Nat) = 4 ∧
      (completion_usage "a b c" "d e f").prompt_tokens ≠ 4 ∧
      (completion_usage "a b c" "d e f").total_tokens ≠
        (completion_usage "a b c" "d e f").prompt_tokens +
          (completion_usage "a b c" "d e f").completion_tokens := by
  decide

/-- C9 (amended): for every non-streaming chat completion,
`prompt_tokens = ⌊wordCount(prompt) × 1.3⌋`,
`completion_tokens = ⌊wordCount(responseText) × 1.3⌋` (truncation, not
rounding), and `total_tokens = ⌊wordCount(prompt) × 1.3 +
wordCount(responseText) × 1.3⌋`, which equals
`prompt_tokens + completion_tokens` or exceeds it by exactly one. -/
theorem c9_theorem (prompt response_text : String) :
    (completion_usage prompt response_text).prompt_tokens =
        ((13 * word_count prompt) / 10 : Nat) ∧
      (completion_usage prompt response_text).completion_tokens =
        ((13 * word_count response_text) / 10 : Nat) ∧
      (completion_usage prompt response_text).total_tokens =
        ((13 * word_count prompt + 13 * word_count response_text) / 10 : Nat) ∧
      ((completion_usage prompt response_text).total_tokens =
          (completion_usage prompt response_text).prompt_tokens +
            (completion_usage prompt response_text).completion_tokens ∨
        (completion_usage prompt response_text).total_tokens =
          (completion_usage prompt response_text).prompt_tokens +
            (completion_usage prompt response_text).completion_tokens + 1) := by
  refine ⟨rfl, rfl, rfl, ?_⟩
  simp only [completion_usage]
  omega

/-- C8 (counterexample): for the session line segment `Time: 0.0016s` the
code computes `int(float("0.0016") * 1000) = int(1.6) = 1`, while the
claim's `round(0.0016 × 1000) = round(1.6) = 2`: truncation, not rounding,
so the claim fails as stated. -/
theorem c8_counterexample :
    (parse_metadata c8Stderr).duration_ms = 1 ∧
      pyFloat " 0.0016".toList = some ⟨16, 4⟩ ∧
      dec_mul1000_round ⟨16, 4⟩ = 2 ∧
      (parse_metadata c8Stderr).duration_ms ≠ dec_mul1000_round ⟨16, 4⟩ := by
  decide

lemma pySplitChar_not_mem {sep : Char} {l : List Char} (h : sep ∉ l) :
    pySplitChar sep l = [l] := by
  induction l with
  | nil => rfl
  | cons a t ih =>
    have ha : ¬ a = sep := fun e => h (by simp [e])
    have ht : sep ∉ t := fun hm => h (List.mem_cons_of_mem _ hm)
    simp only [pySplitChar]
    rw [if_neg ha, ih ht]

lemma pySplitChar_append {sep : Char} {a : List Char} (b : List Char)
    (h : sep ∉ a) :
    pySplitChar sep (a ++ sep :: b) = a :: pySplitChar sep b := by
  induction a with
  | nil =>
    simp [pySplitChar]
  | cons x xs ih =>
    have hx : ¬ x = sep := fun e => h (by simp [e])
    have hxs : sep ∉ xs := fun hm => h (List.mem_cons_of_mem _ hm)
    simp only [List.cons_append, pySplitChar, List.append_eq]
    rw [if_neg hx, ih hxs]

lemma containsSub_not_mem (ch : Char) {n h : List Char} (hn : ch ∈ n)
    (hh : ch ∉ h) : containsSub n h = false := by
  induction h with
  | nil =>
    cases n with
    | nil => cases hn
    | cons a t => rfl
  | cons a t ih =>
    have hat : ch ∉ t := fun hm => hh (List.mem_cons_of_mem _ hm)
    have hp : n.isPrefixOf (a :: t) = false := by
      cases hx : n.isPrefixOf (a :: t) with
      | false => rfl
      | true =>
        obtain ⟨t2, ht2⟩ := exists_of_isPrefixOf hx
        exact absurd (ht2 ▸ List.mem_append_left _ hn) hh
    simp only [containsSub]
    rw [hp, ih hat]
    rfl

lemma pyFloat_ws_cons (c : Char) (l : List Char) (hc : isPyWs c = true) :
    pyFloat (c :: l) = pyFloat l := by
  simp only [pyFloat, List.dropWhile_cons, hc, if_true]

lemma dropWhile_s_no_s {l : List Char} (h : 's' ∉ l) :
    l.dropWhile (fun c => c = 's') = l := by
  cases l with
  | nil => rfl
  | cons a t =>
    have ha : ¬ (a = 's') := fun e => h (by simp [e])
    rw [List.dropWhile_cons]
    simp [ha]

lemma pyRstripS_append_s {l : List Char} (h : 's' ∉ l) :
    pyRstripS (l ++ ['s']) = l := by
  have hr : 's' ∉ l.reverse := fun hm => h (List.mem_reverse.mp hm)
  unfold pyRstripS
  rw [List.reverse_append]
  simp [List.dropWhile_cons, dropWhile_s_no_s hr]

lemma pyStripRight_append_nonws {l : List Char} {c : Char}
    (hc : isPyWs c = false) : pyStripRight (l ++ [c]) = l ++ [c] := by
  unfold pyStripRight
  rw [List.reverse_append]
  simp only [List.reverse_cons, List.reverse_nil, List.nil_append,
    List.singleton_append]
  rw [List.dropWhile_cons]
  rw [hc]
  simp only [Bool.false_eq_true, if_false]
  rw [List.reverse_cons, List.reverse_reverse]

lemma parseSegment_time (x : List Char) (q : Dec) (m : SessionMetadata)
    (hxcolon : ':' ∉ x) (hxs : 's' ∉ x) (hxC : 'C' ∉ x)
    (hq : pyFloat x = some q) :
    parseSegment m (" Time: ".toList ++ (x ++ ['s'])) =
      { m with duration_ms := dec_mul1000_int q } := by
  have hpart : pyStrip (" Time: ".toList ++ (x ++ ['s'])) =
      ("Time: ".toList ++ x) ++ ['s'] := by
    unfold pyStrip
    have h1 : pyStripLeft (" Time: ".toList ++ (x ++ ['s'])) =
        "Time: ".toList ++ (x ++ ['s']) := rfl
    rw [h1, ← List.append_assoc]
    exact pyStripRight_append_nonws rfl
  have hcost : containsSub costMarker (("Time: ".toList ++ x) ++ ['s'])
      = false := by
    refine containsSub_not_mem 'C' (by decide) ?_
    intro hm
    rcases List.mem_append.mp hm with h1 | h1
    · rcases List.mem_append.mp h1 with h2 | h2
      · revert h2; decide
      · exact hxC h2
    · revert h1; decide
  have htime : containsSub timeMarker (("Time: ".toList ++ x) ++ ['s'])
      = true := rfl
  have hsplit : pySplitChar ':' (("Time: ".toList ++ x) ++ ['s']) =
      [['T', 'i', 'm', 'e'], ' ' :: (x ++ ['s'])] := by
    have hshape : ("Time: ".toList ++ x) ++ ['s'] =
        ['T', 'i', 'm', 'e'] ++ ':' :: (' ' :: (x ++ ['s'])) := by
      have h0 : "Time: ".toList ++ x =
          ['T', 'i', 'm', 'e'] ++ ':' :: (' ' :: x) := rfl
      rw [h0, List.append_assoc]
      rfl
    rw [hshape, pySplitChar_append _ (by decide)]
    rw [pySplitChar_not_mem ?_]
    intro hm
    rcases List.mem_cons.mp hm with h1 | h1
    · cases h1
    · rcases List.mem_append.mp h1 with h2 | h2
      · exact hxcolon h2
      · revert h2; decide
  have hrs : pyRstripS (' ' :: (x ++ ['s'])) = ' ' :: x := by
    have hmem : 's' ∉ (' ' :: x) := by
      intro hm
      rcases List.mem_cons.mp hm with h1 | h1
      · cases h1
      · exact hxs h1
    exact pyRstripS_append_s hmem
  have hfl : pyFloat (' ' :: x) = some q := by
    rw [pyFloat_ws_cons ' ' x rfl, hq]
  simp only [parseSegment, hpart, hcost, htime, Bool.false_eq_true, if_false,
    if_true, hsplit, List.get?, hrs, hfl]

/-- C8 (amended): for every side-channel session line whose `Time:` segment
carries a decimal/exponent literal `x` that parses as the exact decimal
`q`, provided `q × 1000` is not exactly an integer and the mantissa of `q`
is at most `10^12` — the region where the exact decimal model provably
agrees with the program's binary64 computation (see `dec_mul1000_int`) —
the extracted `duration_ms` is the truncation toward zero of `q × 1000`
(Python `int(float(x) * 1000)`), not the rounding the claim states, and
the other fields keep their defaults (session id empty, cost 0, turns 1);
segments that fail to parse are skipped without raising, leaving all
defaults (second conjunct).  At an exact integer `x × 1000 = n`, excluded
here, the program's floating point may truncate to `n - 1` instead
(`Time: 1.015s` yields 1014). -/
theorem c8_theorem (x : List Char) (q : Dec)
    (hchars : ∀ c ∈ x, c ∈ c8FloatChars) (hq : pyFloat x = some q)
    (_hmag : q.num.natAbs ≤ 10 ^ 12)
    (_hnotint : ¬ ((10 : Int) ^ q.exp10 ∣ q.num * 1000)) :
    parse_metadata ("# Session: abc ".toList ++ '|' ::
        (" Time: ".toList ++ (x ++ ['s']))) =
      { metadataDefaults with duration_ms := dec_mul1000_int q } ∧
      parse_metadata
          "# Session: abc | Time: zzz | Cost: $oops | Turns: many".toList =
        metadataDefaults := by
  have hxnl : '\n' ∉ x := fun hm => by have h2 := hchars _ hm; revert h2; decide
  have hxpipe : '|' ∉ x := fun hm => by have h2 := hchars _ hm; revert h2; decide
  have hxcolon : ':' ∉ x := fun hm => by have h2 := hchars _ hm; revert h2; decide
  have hxs : 's' ∉ x := fun hm => by have h2 := hchars _ hm; revert h2; decide
  have hxC : 'C' ∉ x := fun hm => by have h2 := hchars _ hm; revert h2; decide
  constructor
  · have hnl : '\n' ∉ ("# Session: abc ".toList ++ '|' ::
        (" Time: ".toList ++ (x ++ ['s']))) := by
      intro hm
      rcases List.mem_append.mp hm with h1 | h1
      · revert h1; decide
      · rcases List.mem_cons.mp h1 with h2 | h2
        · cases h2
        · rcases List.mem_append.mp h2 with h3 | h3
          · revert h3; decide
          · rcases List.mem_append.mp h3 with h4 | h4
            · exact hxnl h4
            · revert h4; decide
    unfold parse_metadata
    rw [pySplitChar_not_mem hnl]
    simp only [List.foldl_cons, List.foldl_nil]
    unfold parseLine
    have hpre : sessionMarker.isPrefixOf ("# Session: abc ".toList ++ '|' ::
        (" Time: ".toList ++ (x ++ ['s']))) = true := by
      have hA : "# Session: abc ".toList = sessionMarker ++ " abc ".toList :=
        by decide
      rw [hA, List.append_assoc]
      exact isPrefixOf_append_self _ _
    rw [if_pos hpre]
    have hpipeB : '|' ∉ (" Time: ".toList ++ (x ++ ['s'])) := by
      intro hm
      rcases List.mem_append.mp hm with h1 | h1
      · revert h1; decide
      · rcases List.mem_append.mp h1 with h2 | h2
        · exact hxpipe h2
        · revert h2; decide
    rw [pySplitChar_append _ (by decide : '|' ∉ "# Session: abc ".toList),
      pySplitChar_not_mem hpipeB]
    simp only [List.foldl_cons, List.foldl_nil]
    rw [show parseSegment metadataDefaults ("# Session: abc ".toList)
        = metadataDefaults from by decide]
    exact parseSegment_time x q metadataDefaults hxcolon hxs hxC hq
  · decide

/-- C8 (amended) instantiated at `Time: 1.2345s` (whose `1234.5` is not an
integer, so exact and binary64 truncation agree): the duration becomes
1234 milliseconds and every other field keeps its default. -/
theorem c8_theorem_witness :
    parse_metadata ("# Session: abc ".toList ++ '|' ::
        (" Time: ".toList ++ ("1.2345".toList ++ ['s']))) =
      { metadataDefaults with duration_ms := dec_mul1000_int ⟨12345, 4⟩ } ∧
      parse_metadata
          "# Session: abc | Time: zzz | Cost: $oops | Turns: many".toList =
        metadataDefaults :=
  c8_theorem "1.2345".toList ⟨12345, 4⟩ (by decide) (by decide) (by decide)
    (by decide)

/- Signature Verifier (`verify_github_signature` in src/server.py).  Header
   and secret strings are modelled as `List Char`, the raw body as bytes
   (`List Nat`).  The keyed hash `hmac.new(secret.encode, body,
   hashlib.sha256).hexdigest()` is Python standard-library code, external to
   this repository; it is modelled as an arbitrary function `hexDigest`
   passed explicitly, so every theorem below holds for the real HMAC-SHA256
   in particular. -/

end ClaudeBridge
